import Mathlib

/-!
Verification of the recoil-tools state-shape modules (list, dialog, filters,
pagination) as a shallow embedding in Lean 4.

Each TypeScript state record becomes a Lean structure and each setter of a
setter bundle becomes a pure state-transition function translated from the
read-modify-write body in the source (`src/list.ts`, `src/dialog.ts`,
`src/filters.ts`, `src/pagination.ts`, `src/utils.ts`).  JavaScript numbers
used as counters/indices are modelled as `Int` (findIndex returns -1, pages
may go negative); the possibly-`undefined` dialog meta slot is modelled as
`Option`.
-/

/-- The `SetterOrUpdater` argument: either a literal replacement value or an
updater function, discriminated in the source by a `typeof === 'function'`
check (`src/utils.ts`, and inlined in `src/filters.ts`). -/
inductive ValOrUpdater (α : Type) where
  | val (a : α)
  | updater (f : α → α)

/-- `executeUpdater` from `src/utils.ts`: call the updater with the current
value, or return the literal value. -/
def executeUpdater {α : Type} : ValOrUpdater α → α → α
  | .val a, _ => a
  | .updater f, cur => f cur

/-- `RecoilPaginationState<T>` from `src/pagination.ts`. -/
structure RecoilPaginationState (T : Type) where
  total : Int
  page : Int
  limit : Int
  offset : Int
  meta : T
deriving Repr, DecidableEq

/-- `setTotal` from `src/pagination.ts` (lines 93-101): spreads the previous
state, replacing only `total`. -/
def paginationSetTotal {T : Type} (vu : ValOrUpdater Int)
    (s : RecoilPaginationState T) : RecoilPaginationState T :=
  { s with total := executeUpdater vu s.total }

/-- `setPage` from `src/pagination.ts` (lines 103-116): resolves the new page
and recomputes `offset = (page - 1) * prevState.limit`. -/
def paginationSetPage {T : Type} (vu : ValOrUpdater Int)
    (s : RecoilPaginationState T) : RecoilPaginationState T :=
  let page := executeUpdater vu s.page
  { s with page := page, offset := (page - 1) * s.limit }

/-- `setLimit` from `src/pagination.ts` (lines 118-131): resolves the new
limit and recomputes `offset = (prevState.page - 1) * limit`. -/
def paginationSetLimit {T : Type} (vu : ValOrUpdater Int)
    (s : RecoilPaginationState T) : RecoilPaginationState T :=
  let limit := executeUpdater vu s.limit
  { s with limit := limit, offset := (s.page - 1) * limit }

/-- `setMeta` from `src/pagination.ts` (lines 133-141): replaces only `meta`. -/
def paginationSetMeta {T : Type} (vu : ValOrUpdater T)
    (s : RecoilPaginationState T) : RecoilPaginationState T :=
  { s with meta := executeUpdater vu s.meta }

/-- `RecoilListState<T, U>` from `src/list.ts`. -/
structure RecoilListState (T U : Type) where
  data : List T
  meta : U
deriving Repr, DecidableEq

/-- `updateArrayItemAt` from `src/list.ts` (lines 385-393): negative index
returns the array unchanged; otherwise a copy with `arr[index] = item`.
JavaScript assignment past the end extends the array, filling the gap with
`undefined` holes; those holes are modelled by `default`. -/
def updateArrayItemAt {T : Type} [Inhabited T] (array : List T) (index : Int)
    (item : T) : List T :=
  if index < 0 then array
  else if index.toNat < array.length then array.set index.toNat item
  else array ++ List.replicate (index.toNat - array.length) default ++ [item]

/-- `removeArrayItemAt` from `src/list.ts` (lines 401-409): negative index
returns the array unchanged; otherwise a copy with `splice(index, 1)`
applied (removing nothing when the index is past the end). -/
def removeArrayItemAt {T : Type} (array : List T) (index : Int) : List T :=
  if index < 0 then array else array.eraseIdx index.toNat

/-- `Array.prototype.findIndex` with an `(item, index)` predicate, carrying
the index of the head: returns the absolute index of the first match, `-1`
when there is none. -/
def findIndexFrom {T : Type} (p : T → Nat → Bool) : List T → Nat → Int
  | [], _ => -1
  | a :: as, i => if p a i then (i : Int) else findIndexFrom p as (i + 1)

/-- `data.findIndex(predicate)` as used by `upsert`, `update` and `remove`
in `src/list.ts`. -/
def jsFindIndex {T : Type} (p : T → Nat → Bool) (l : List T) : Int :=
  findIndexFrom p l 0

/-- `Array.prototype.filter` with an `(item, index)` predicate, carrying the
index of the head. -/
def filterIdxFrom {T : Type} (p : T → Nat → Bool) : List T → Nat → List T
  | [], _ => []
  | a :: as, i =>
    if p a i then a :: filterIdxFrom p as (i + 1) else filterIdxFrom p as (i + 1)

/-- `unshift` from `src/list.ts` (lines 174-181):
`data: data.concat(prevState.data)`. -/
def listUnshift {T U : Type} (items : List T) (s : RecoilListState T U) :
    RecoilListState T U :=
  { s with data := items ++ s.data }

/-- `push` from `src/list.ts` (lines 183-190):
`data: prevState.data.concat(data)`. -/
def listPush {T U : Type} (items : List T) (s : RecoilListState T U) :
    RecoilListState T U :=
  { s with data := s.data ++ items }

/-- `updateAt` from `src/list.ts` (lines 216-224). -/
def listUpdateAt {T U : Type} [Inhabited T] (index : Int) (item : T)
    (s : RecoilListState T U) : RecoilListState T U :=
  { s with data := updateArrayItemAt s.data index item }

/-- `removeAt` from `src/list.ts` (lines 250-258). -/
def listRemoveAt {T U : Type} (index : Int) (s : RecoilListState T U) :
    RecoilListState T U :=
  { s with data := removeArrayItemAt s.data index }

/-- `remove` from `src/list.ts` (lines 260-271): `findIndex` on the
predicate, then `removeArrayItemAt` at the found index. -/
def listRemove {T U : Type} (p : T → Nat → Bool) (s : RecoilListState T U) :
    RecoilListState T U :=
  { s with data := removeArrayItemAt s.data (jsFindIndex p s.data) }

/-- `removeAll` from `src/list.ts` (lines 273-280):
`data.filter((item, i) => !predicate(item, i))`. -/
def listRemoveAll {T U : Type} (p : T → Nat → Bool) (s : RecoilListState T U) :
    RecoilListState T U :=
  { s with data := filterIdxFrom (fun item i => !(p item i)) s.data 0 }

/-- Spec-side description of `remove`: drop the first element whose
`(item, index)` predicate holds, keep everything else in order. -/
def eraseFirstFrom {T : Type} (p : T → Nat → Bool) : List T → Nat → List T
  | [], _ => []
  | a :: as, i => if p a i then as else a :: eraseFirstFrom p as (i + 1)

/-- `RecoilFiltersState<T>` from `src/filters.ts`. -/
structure RecoilFiltersState (T : Type) where
  isOpen : Bool
  isApplied : Bool
  values : T
deriving Repr, DecidableEq

/-- `setOpen` from `src/filters.ts` (lines 87-98): replaces only `isOpen`
(the typeof-function dispatch is inlined in the source). -/
def filtersSetOpen {T : Type} (vu : ValOrUpdater Bool)
    (s : RecoilFiltersState T) : RecoilFiltersState T :=
  { s with isOpen := executeUpdater vu s.isOpen }

/-- `setApplied` from `src/filters.ts` (lines 100-111): replaces only
`isApplied`. -/
def filtersSetApplied {T : Type} (vu : ValOrUpdater Bool)
    (s : RecoilFiltersState T) : RecoilFiltersState T :=
  { s with isApplied := executeUpdater vu s.isApplied }

/-- `open` from `src/filters.ts` (lines 113-116): `setOpen(true)`. -/
def filtersOpen {T : Type} (s : RecoilFiltersState T) : RecoilFiltersState T :=
  filtersSetOpen (ValOrUpdater.val true) s

/-- `close` from `src/filters.ts` (lines 118-121): `setOpen(false)`. -/
def filtersClose {T : Type} (s : RecoilFiltersState T) : RecoilFiltersState T :=
  filtersSetOpen (ValOrUpdater.val false) s

/-- `apply` from `src/filters.ts` (lines 123-135): replaces `values` and
unconditionally sets `isApplied: true` in the same transition. -/
def filtersApply {T : Type} (vu : ValOrUpdater T) (s : RecoilFiltersState T) :
    RecoilFiltersState T :=
  { s with isApplied := true, values := executeUpdater vu s.values }

/-- One call to an operation of the filters setter bundle returned by
`useRecoilFilters` (`src/filters.ts` lines 137-146). -/
inductive FiltersOp (T : Type) where
  | opSetOpen (vu : ValOrUpdater Bool)
  | opSetApplied (vu : ValOrUpdater Bool)
  | opOpen
  | opClose
  | opApply (vu : ValOrUpdater T)

/-- Dispatch one filters bundle call to its transition from `src/filters.ts`. -/
def applyFiltersOp {T : Type} : FiltersOp T → RecoilFiltersState T → RecoilFiltersState T
  | .opSetOpen vu, s => filtersSetOpen vu s
  | .opSetApplied vu, s => filtersSetApplied vu s
  | .opOpen, s => filtersOpen s
  | .opClose, s => filtersClose s
  | .opApply vu, s => filtersApply vu s

/-- Run a sequence of filters bundle calls left to right (each setter reads
the latest committed state, per the functional-update semantics of
`setState`). -/
def runFiltersOps {T : Type} (ops : List (FiltersOp T)) (s : RecoilFiltersState T) :
    RecoilFiltersState T :=
  ops.foldl (fun acc op => applyFiltersOp op acc) s

/-- Whether a filters bundle call is an `apply`. -/
def isApplyOp {T : Type} : FiltersOp T → Bool
  | .opApply _ => true
  | _ => false

/-- Whether a filters bundle call is a `setApplied`. -/
def isSetAppliedOp {T : Type} : FiltersOp T → Bool
  | .opSetApplied _ => true
  | _ => false

/-- `RecoilDialogState<T>` from `src/dialog.ts`; the `meta` slot of a JS
object may hold `undefined`, modelled as `Option T` with `none` for
`undefined`. -/
structure RecoilDialogState (T : Type) where
  isOpen : Bool
  meta : Option T
deriving Repr, DecidableEq

/-- `open` from `src/dialog.ts` (lines 150-159):
`{ ...prevState, ...(meta !== undefined && { meta }), isOpen: true }`.
The optional parameter `meta?: T` is modelled as `Option T`; the body
receives `none` (`undefined`) both when the argument is omitted and when
`undefined` is passed explicitly, and keeps the previous `meta` exactly
when the received value compares equal to `undefined`. -/
def dialogOpen {T : Type} (meta : Option T) (s : RecoilDialogState T) :
    RecoilDialogState T :=
  { s with meta := if meta.isSome then meta else s.meta, isOpen := true }

/-- Field names of the record `RecoilListSetters` returned by
`useRecoilList` (`src/list.ts` lines 30-106 and 309-330). -/
def listSetterNames : List String :=
  ["setData", "clearData", "setMeta", "unshift", "push", "clearPush",
   "upsert", "updateAt", "update", "updateAll", "removeAt", "remove",
   "removeAll", "filter", "sort", "reverse", "reset"]

/-- Field names of the record `RecoilDialogSetters` returned by
`useRecoilDialogSetters` (`src/dialog.ts` lines 31-52 and 178). -/
def dialogSetterNames : List String :=
  ["setOpen", "open", "close", "setMeta", "reset"]

/-- Field names of the record `RecoilFiltersSetters` returned by
`useRecoilFilters` (`src/filters.ts` lines 32-54 and 137-146). -/
def filtersSetterNames : List String :=
  ["setOpen", "setApplied", "open", "close", "apply"]

/-- Field names of the record `RecoilPaginationSetters` returned by
`useRecoilPagination` (`src/pagination.ts` lines 41-58 and 143-151). -/
def paginationSetterNames : List String :=
  ["setTotal", "setPage", "setLimit", "setMeta"]

/-- The capabilities of the opaque reactive cell (spec section 6). -/
inductive CellCap where
  | read
  | subscribeAndRead
  | write
  | reset
deriving DecidableEq, Repr

/-- Cell capabilities established by the Recoil primitive `useRecoilState`:
it reads the cell and subscribes the caller to changes. -/
def useRecoilStateCaps : List CellCap := [CellCap.subscribeAndRead]

/-- Cell capabilities established by `useRecoilValue`: subscribe-and-read. -/
def useRecoilValueCaps : List CellCap := [CellCap.subscribeAndRead]

/-- Cell capabilities established by `useSetRecoilState`: none at render
time; it only hands back a write function. -/
def useSetRecoilStateCaps : List CellCap := []

/-- Cell capabilities established by `useResetRecoilState`: none at render
time; it only hands back a reset function. -/
def useResetRecoilStateCaps : List CellCap := []

/-- Capabilities invoked by `useRecoilList` (`src/list.ts` lines 144-145):
`useRecoilState` plus `useResetRecoilState`. -/
def useRecoilListCaps : List CellCap :=
  useRecoilStateCaps ++ useResetRecoilStateCaps

/-- Capabilities invoked by `useRecoilListSetters` (`src/list.ts` lines
371-376): it delegates to `useRecoilList` and discards the state. -/
def useRecoilListSettersCaps : List CellCap := useRecoilListCaps

/-- Capabilities invoked by `useRecoilFilters` (`src/filters.ts` line 85):
`useRecoilState`. -/
def useRecoilFiltersCaps : List CellCap := useRecoilStateCaps

/-- Capabilities invoked by `useRecoilFiltersSetters` (`src/filters.ts`
lines 202-207): it delegates to `useRecoilFilters` and discards the state. -/
def useRecoilFiltersSettersCaps : List CellCap := useRecoilFiltersCaps

/-- Capabilities invoked by `useRecoilPagination` (`src/pagination.ts` line
91): `useRecoilState`. -/
def useRecoilPaginationCaps : List CellCap := useRecoilStateCaps

/-- Capabilities invoked by `useRecoilPaginationSetters`
(`src/pagination.ts` lines 162-167): it delegates to `useRecoilPagination`
and discards the state. -/
def useRecoilPaginationSettersCaps : List CellCap := useRecoilPaginationCaps

/-- Capabilities invoked by `useRecoilDialogSetters` (`src/dialog.ts` lines
134-138): `useSetRecoilState` plus `useResetRecoilState`, no read. -/
def useRecoilDialogSettersCaps : List CellCap :=
  useSetRecoilStateCaps ++ useResetRecoilStateCaps

/-- Capabilities invoked by `useRecoilDialog` (`src/dialog.ts` lines 87-94):
`useRecoilValue` plus the setters-only hook. -/
def useRecoilDialogCaps : List CellCap :=
  useRecoilValueCaps ++ useRecoilDialogSettersCaps

/-- The derived-field invariant of the pagination shape:
`offset == (page - 1) * limit`. -/
def paginationInv {T : Type} (s : RecoilPaginationState T) : Prop :=
  s.offset = (s.page - 1) * s.limit

instance {T : Type} (s : RecoilPaginationState T) : Decidable (paginationInv s) := by
  unfold paginationInv; infer_instance

/-- C1: every pagination setter preserves `offset == (page - 1) * limit`;
`setPage` recomputes the offset from the new page and the limit in effect at
call time, and `setLimit` recomputes it from the unchanged current page and
the new limit. -/
theorem pagination_setters_preserve_offset_invariant {T : Type}
    (s : RecoilPaginationState T) (h : paginationInv s) :
    (∀ vu, paginationInv (paginationSetTotal vu s)) ∧
    (∀ vu, paginationInv (paginationSetPage vu s)) ∧
    (∀ vu, paginationInv (paginationSetLimit vu s)) ∧
    (∀ vu, paginationInv (paginationSetMeta vu s)) ∧
    (∀ vu, (paginationSetPage vu s).offset =
        ((paginationSetPage vu s).page - 1) * s.limit ∧
      (paginationSetPage vu s).limit = s.limit) ∧
    (∀ vu, (paginationSetLimit vu s).offset =
        (s.page - 1) * (paginationSetLimit vu s).limit ∧
      (paginationSetLimit vu s).page = s.page) := by
  refine ⟨?_, ?_, ?_, ?_, ?_, ?_⟩ <;> intro vu <;>
    simp [paginationInv, paginationSetTotal, paginationSetPage,
      paginationSetLimit, paginationSetMeta] at h ⊢ <;> exact h

/-- Witness for `pagination_setters_preserve_offset_invariant` at the
scenario default `{total:0,page:1,limit:10,offset:0}`: `setPage(10)` yields
`offset = 90` and keeps `limit = 10`. -/
theorem pagination_setters_preserve_offset_invariant_witness :
    (paginationSetPage (ValOrUpdater.val 10)
      (⟨0, 1, 10, 0, ()⟩ : RecoilPaginationState Unit)).offset = 90 ∧
    (paginationSetPage (ValOrUpdater.val 10)
      (⟨0, 1, 10, 0, ()⟩ : RecoilPaginationState Unit)).limit = 10 := by
  have h := pagination_setters_preserve_offset_invariant
    (⟨0, 1, 10, 0, ()⟩ : RecoilPaginationState Unit) (by decide)
  have h2 := h.2.2.2.2.1 (ValOrUpdater.val 10)
  exact ⟨by rw [h2.1]; decide, h2.2⟩

/-- C10: the pagination setters perform no range validation: for every
integer `p` (including zero and negatives) `setPage(p)` stores `page = p` and
`offset = (p - 1) * limit` leaving `total`, `limit`, `meta` unchanged, so the
offset goes negative whenever `p ≤ 0 < limit`; `setTotal` likewise stores any
integer, never enforcing non-negativity. -/
theorem pagination_no_range_validation {T : Type}
    (p t : Int) (s : RecoilPaginationState T) :
    paginationSetPage (ValOrUpdater.val p) s =
      ⟨s.total, p, s.limit, (p - 1) * s.limit, s.meta⟩ ∧
    paginationSetTotal (ValOrUpdater.val t) s =
      ⟨t, s.page, s.limit, s.offset, s.meta⟩ ∧
    (p ≤ 0 → 0 < s.limit → (paginationSetPage (ValOrUpdater.val p) s).offset < 0) := by
  refine ⟨rfl, rfl, fun hp hl => ?_⟩
  have hneg : p - 1 < 0 := by omega
  simpa [paginationSetPage, executeUpdater] using mul_neg_of_neg_of_pos hneg hl

/-- Witness for `pagination_no_range_validation`: `setPage(0)` on the default
state stores `page = 0` and the negative offset `-10`; `setTotal(-5)` stores
the negative total. -/
theorem pagination_no_range_validation_witness :
    paginationSetPage (ValOrUpdater.val 0)
      (⟨0, 1, 10, 0, ()⟩ : RecoilPaginationState Unit) = ⟨0, 0, 10, -10, ()⟩ ∧
    paginationSetTotal (ValOrUpdater.val (-5))
      (⟨0, 1, 10, 0, ()⟩ : RecoilPaginationState Unit) = ⟨-5, 1, 10, 0, ()⟩ ∧
    (paginationSetPage (ValOrUpdater.val 0)
      (⟨0, 1, 10, 0, ()⟩ : RecoilPaginationState Unit)).offset < 0 := by
  have h := pagination_no_range_validation 0 (-5)
    (⟨0, 1, 10, 0, ()⟩ : RecoilPaginationState Unit)
  refine ⟨by rw [h.1]; decide, by rw [h.2.1], h.2.2 (by decide) (by decide)⟩

lemma findIndexFrom_lower {T : Type} (p : T → Nat → Bool) (l : List T) (i : Nat) :
    findIndexFrom p l i = -1 ∨ (i : Int) ≤ findIndexFrom p l i := by
  induction l generalizing i with
  | nil => exact Or.inl rfl
  | cons a as ih =>
    by_cases hp : p a i = true
    · right; simp [findIndexFrom, hp]
    · rcases ih (i + 1) with h | h
      · left; simp [findIndexFrom, hp, h]
      · right
        simp only [findIndexFrom, hp, if_false, Bool.false_eq_true]
        push_cast at h ⊢
        omega

lemma removeAt_findIndexFrom {T : Type} (p : T → Nat → Bool) (l : List T) (i : Nat) :
    (if findIndexFrom p l i < 0 then l
     else l.eraseIdx (findIndexFrom p l i - i).toNat) = eraseFirstFrom p l i := by
  induction l generalizing i with
  | nil => simp [findIndexFrom, eraseFirstFrom]
  | cons a as ih =>
    by_cases hp : p a i = true
    · have hnn : ¬ ((i : Int) < 0) := by omega
      have hz : ((i : Int) - i).toNat = 0 := by omega
      simp [findIndexFrom, eraseFirstFrom, hp, hnn, hz]
    · simp only [findIndexFrom, eraseFirstFrom, hp, if_false, Bool.false_eq_true]
      rcases findIndexFrom_lower p as (i + 1) with h | h
      · have := ih (i + 1)
        simp only [h] at this ⊢
        simpa using congrArg (List.cons a) this
      · have hnn : ¬ (findIndexFrom p as (i + 1) < 0) := by
          push_cast at h; omega
        have hsucc : (findIndexFrom p as (i + 1) - i).toNat =
            (findIndexFrom p as (i + 1) - (i + 1)).toNat + 1 := by
          push_cast at h; omega
        have := ih (i + 1)
        simp only [hnn, if_false] at this ⊢
        push_cast at this
        rw [hsucc, List.eraseIdx_cons_succ, this]

lemma findIndexFrom_eq_neg {T : Type} (p : T → Nat → Bool) (l : List T) (i : Nat)
    (h : ∀ pr ∈ l.enumFrom i, p pr.2 pr.1 = false) : findIndexFrom p l i = -1 := by
  induction l generalizing i with
  | nil => rfl
  | cons a as ih =>
    have ha : p a i = false := h (i, a) (by simp [List.enumFrom])
    have hrest : ∀ pr ∈ as.enumFrom (i + 1), p pr.2 pr.1 = false := by
      intro pr hpr
      exact h pr (by simp [List.enumFrom, hpr])
    simp [findIndexFrom, ha, ih (i + 1) hrest]

lemma filterIdxFrom_item_blind_idem {T : Type} (r : T → Bool) (l : List T) :
    ∀ i j : Nat, filterIdxFrom (fun a _ => r a) (filterIdxFrom (fun a _ => r a) l i) j =
      filterIdxFrom (fun a _ => r a) l i := by
  induction l with
  | nil => intro i j; rfl
  | cons a as ih =>
    intro i j
    by_cases hr : r a = true
    · simp [filterIdxFrom, hr, ih (i + 1) (j + 1)]
    · simp [filterIdxFrom, hr, ih (i + 1) j]

/-- C2: the filters setter bundle returned by `useRecoilFilters` is exactly
`setOpen`, `setApplied`, `open`, `close`, `apply` and contains no `reset`,
although the CHANGELOG (2.0.1) documents one and the sibling list and dialog
bundles expose it. -/
theorem filters_bundle_has_no_reset :
    filtersSetterNames = ["setOpen", "setApplied", "open", "close", "apply"] ∧
    "reset" ∉ filtersSetterNames ∧
    "reset" ∈ listSetterNames ∧
    "reset" ∈ dialogSetterNames ∧
    "reset" ∉ paginationSetterNames := by
  refine ⟨rfl, ?_, ?_, ?_, ?_⟩ <;> decide

/-- C3: the setters-only hooks of the list, filters and pagination modules
delegate to their combined hook, which calls `useRecoilState` and therefore
establishes a reactive subscription on the cell; only the dialog module
setters-only hook avoids the subscribe-and-read capability. -/
theorem settersOnly_hooks_subscription_caps :
    CellCap.subscribeAndRead ∈ useRecoilListSettersCaps ∧
    CellCap.subscribeAndRead ∈ useRecoilFiltersSettersCaps ∧
    CellCap.subscribeAndRead ∈ useRecoilPaginationSettersCaps ∧
    CellCap.subscribeAndRead ∉ useRecoilDialogSettersCaps := by
  refine ⟨?_, ?_, ?_, ?_⟩ <;> decide

/-- C4 counterexample: on the dialog state `{isOpen: false, meta: 5}`,
calling `open` with the absent-value sentinel (`undefined`) explicitly
supplied leaves `meta` at `some 5` instead of replacing it with the
sentinel, because the source compares the received value with `undefined`
rather than checking argument presence. -/
theorem dialog_open_sentinel_counterexample :
    (dialogOpen none (⟨false, some 5⟩ : RecoilDialogState Nat)).meta = some 5 ∧
    (dialogOpen none (⟨false, some 5⟩ : RecoilDialogState Nat)).meta ≠ none := by
  exact ⟨rfl, by decide⟩

/-- C4 amended: `open(m)` with a defined (non-`undefined`) value `m` sets
`isOpen` to `true` and replaces `meta` with `m`; calling `open` with the
argument omitted or explicitly `undefined` (both reaching the body as the
same value) sets `isOpen` to `true` and keeps the previous `meta`: the
distinction is a value comparison against `undefined`, not argument
presence. -/
theorem dialog_open_meta_by_value_comparison {T : Type} (v : T)
    (s : RecoilDialogState T) :
    dialogOpen (some v) s = ⟨true, some v⟩ ∧
    dialogOpen none s = ⟨true, s.meta⟩ := by
  cases s
  exact ⟨rfl, rfl⟩

/-- C5 counterexample: `setApplied(true)` flips `isApplied` from `false` to
`true` even though it is not an `apply` call, refuting that only `apply` can
make `isApplied` become true. -/
theorem filters_setApplied_counterexample :
    (runFiltersOps [FiltersOp.opSetApplied (ValOrUpdater.val true)]
      (⟨false, false, ()⟩ : RecoilFiltersState Unit)).isApplied = true ∧
    isApplyOp (FiltersOp.opSetApplied (ValOrUpdater.val true) : FiltersOp Unit) = false :=
  ⟨rfl, rfl⟩

/-- C5 amended: in every sequence of filters bundle calls, `isApplied` can
become true only through `apply` or `setApplied`: a sequence containing
neither leaves `isApplied` exactly as it was, while `apply` always sets it
to `true`. -/
theorem filters_isApplied_only_apply_or_setApplied {T : Type}
    (ops : List (FiltersOp T)) (s : RecoilFiltersState T)
    (h : ∀ op ∈ ops, isApplyOp op = false ∧ isSetAppliedOp op = false) :
    (runFiltersOps ops s).isApplied = s.isApplied ∧
    (∀ vu, (filtersApply vu s).isApplied = true) := by
  refine ⟨?_, fun vu => rfl⟩
  induction ops generalizing s with
  | nil => rfl
  | cons op rest ih =>
    have hop := h op (List.mem_cons_self op rest)
    have hrest : ∀ o ∈ rest, isApplyOp o = false ∧ isSetAppliedOp o = false :=
      fun o ho => h o (List.mem_cons_of_mem _ ho)
    have hstep : (applyFiltersOp op s).isApplied = s.isApplied := by
      cases op with
      | opSetOpen vu => rfl
      | opSetApplied vu => simp [isSetAppliedOp] at hop
      | opOpen => rfl
      | opClose => rfl
      | opApply vu => simp [isApplyOp] at hop
    calc (runFiltersOps (op :: rest) s).isApplied
        = (runFiltersOps rest (applyFiltersOp op s)).isApplied := rfl
      _ = (applyFiltersOp op s).isApplied := ih (applyFiltersOp op s) hrest
      _ = s.isApplied := hstep

/-- Witness for `filters_isApplied_only_apply_or_setApplied`: the sequence
`open(); close(); setOpen(true)` on the default leaves `isApplied = false`. -/
theorem filters_isApplied_only_apply_or_setApplied_witness :
    (runFiltersOps
      [FiltersOp.opOpen, FiltersOp.opClose, FiltersOp.opSetOpen (ValOrUpdater.val true)]
      (⟨false, false, ()⟩ : RecoilFiltersState Unit)).isApplied = false := by
  have h := filters_isApplied_only_apply_or_setApplied
    [FiltersOp.opOpen, FiltersOp.opClose, FiltersOp.opSetOpen (ValOrUpdater.val true)]
    (⟨false, false, ()⟩ : RecoilFiltersState Unit)
    (by
      intro op hop
      simp only [List.mem_cons, List.not_mem_nil, or_false] at hop
      rcases hop with rfl | rfl | rfl <;> exact ⟨rfl, rfl⟩)
  exact h.1

/-- C6: `push(...items)` appends the items in order to `data` and
`unshift(...items)` prepends them in order, both leaving `meta` unchanged. -/
theorem list_push_unshift_concat {T U : Type} (items : List T)
    (s : RecoilListState T U) :
    (listPush items s).data = s.data ++ items ∧
    (listPush items s).meta = s.meta ∧
    (listUnshift items s).data = items ++ s.data ∧
    (listUnshift items s).meta = s.meta :=
  ⟨rfl, rfl, rfl, rfl⟩

/-- C7: `remove(predicate)` removes exactly the first element (lowest index)
whose `(item, index)` predicate holds, keeping all other elements and their
order, and is a no-op when no indexed element matches. -/
theorem list_remove_first_match {T U : Type} (p : T → Nat → Bool)
    (s : RecoilListState T U) :
    listRemove p s = { data := eraseFirstFrom p s.data 0, meta := s.meta } ∧
    ((∀ pr ∈ s.data.enumFrom 0, p pr.2 pr.1 = false) → listRemove p s = s) := by
  constructor
  · have key := removeAt_findIndexFrom p s.data 0
    cases s with
    | mk data meta =>
      simp only [listRemove, jsFindIndex, removeArrayItemAt]
      simp only [Int.natCast_zero, Int.sub_zero] at key
      rw [key]
  · intro h
    have hneg : findIndexFrom p s.data 0 = -1 := findIndexFrom_eq_neg p s.data 0 h
    cases s with
    | mk data meta =>
      simp only [listRemove, jsFindIndex] at hneg ⊢
      simp [removeArrayItemAt, hneg]

/-- Witness for `list_remove_first_match`: on `{data: [1, 2]}` with a
predicate matching no element, `remove` leaves the state unchanged; the
first conjunct applied to the scenario list `[1, 2, 3, 4]` with the
predicate `x = 2 or x = 3` yields `[1, 3, 4]`. -/
theorem list_remove_first_match_witness :
    listRemove (fun x _ => x == 9) (⟨[1, 2], ()⟩ : RecoilListState Nat Unit) =
      ⟨[1, 2], ()⟩ ∧
    listRemove (fun x _ => x == 2 || x == 3)
      (⟨[1, 2, 3, 4], ()⟩ : RecoilListState Nat Unit) =
      { data := eraseFirstFrom (fun x _ => x == 2 || x == 3) [1, 2, 3, 4] 0,
        meta := () } := by
  constructor
  · exact (list_remove_first_match (fun x _ => x == 9)
      (⟨[1, 2], ()⟩ : RecoilListState Nat Unit)).2 (by decide)
  · exact (list_remove_first_match (fun x _ => x == 2 || x == 3)
      (⟨[1, 2, 3, 4], ()⟩ : RecoilListState Nat Unit)).1

/-- C8 counterexample: with the index-sensitive predicate
`(item, index) => index == 0`, `removeAll` on `{data: [1, 2]}` yields
`[2]` and a second identical call yields `[]`, so the second call is not a
no-op. -/
theorem list_removeAll_not_idempotent_counterexample :
    listRemoveAll (fun _ i => i == 0)
        (listRemoveAll (fun _ i => i == 0)
          (⟨[1, 2], ()⟩ : RecoilListState Nat Unit)) ≠
      listRemoveAll (fun _ i => i == 0)
        (⟨[1, 2], ()⟩ : RecoilListState Nat Unit) := by
  decide

/-- C8 amended: `removeAll(predicate)` is idempotent for every predicate
that depends only on the item (ignores its index argument); index-sensitive
predicates can remove further elements on the second pass because survivors
shift to new indices. -/
theorem list_removeAll_idempotent_item_blind {T U : Type} (q : T → Bool)
    (s : RecoilListState T U) :
    listRemoveAll (fun a _ => q a) (listRemoveAll (fun a _ => q a) s) =
      listRemoveAll (fun a _ => q a) s := by
  cases s with
  | mk data meta =>
    simp only [listRemoveAll]
    exact congrArg (fun d => RecoilListState.mk d meta)
      (filterIdxFrom_item_blind_idem (fun a => !(q a)) data 0 0)

/-- C9: a negative index makes both `updateAt` and `removeAt` leave the
state completely unchanged (silent no-op). -/
theorem list_negative_index_noop {T U : Type} [Inhabited T] (i : Int)
    (h : i < 0) (item : T) (s : RecoilListState T U) :
    listUpdateAt i item s = s ∧ listRemoveAt i s = s := by
  cases s with
  | mk data meta =>
    constructor <;>
      simp [listUpdateAt, listRemoveAt, updateArrayItemAt, removeArrayItemAt,
        if_pos h]

/-- Witness for `list_negative_index_noop` at index `-1` on `{data: [1, 2]}`. -/
theorem list_negative_index_noop_witness :
    listUpdateAt (-1) 7 (⟨[1, 2], ()⟩ : RecoilListState Nat Unit) = ⟨[1, 2], ()⟩ ∧
    listRemoveAt (-1) (⟨[1, 2], ()⟩ : RecoilListState Nat Unit) = ⟨[1, 2], ()⟩ :=
  list_negative_index_noop (-1) (by decide) 7 ⟨[1, 2], ()⟩
